import Mathlib

/-!
Verification of the YouTube comment downloader (`main.py`).

The development shallowly embeds the comment-fetch pipeline:
`list_comments` (one commentThreads API call, writing CSV records to a
scratch buffer) and `execute_job` (the pagination loop with a record-count
limit), together with `get_tokens` (the OAuth token-exchange handler).

HTTP traffic is modelled by passing the sequence of API responses as an
explicit list: each loop iteration consumes the next response.  The scratch
file is modelled as a string buffer threaded through the loop.  A run whose
response list is exhausted before the loop decides to stop is reported with
outcome `none` (the loop is still running and would issue more requests).
-/

namespace YoutubeComment

/-- The snippet fields of one top-level comment that the code reads
(`item['snippet']['topLevelComment']['snippet']`). -/
structure Comment where
  publishedAt : String
  authorDisplayName : String
  textOriginal : String
deriving Repr, DecidableEq

/-- One parsed page of the commentThreads API: the `items` array and the
optional `nextPageToken` field (`None` when the key is absent). -/
structure Page where
  items : List Comment
  nextPageToken : Option String
deriving Repr, DecidableEq

/-- One HTTP response of the commentThreads endpoint.  `parsed` is the value
`json.loads(text)` would yield; the code only consults it when
`status_code == 200`. -/
structure ApiResponse where
  status_code : Nat
  text : String
  parsed : Page
deriving Repr, DecidableEq

/-- The exception raised on a non-200 API response (class `APIException`):
it carries the status code and the response body. -/
structure APIException where
  code : Nat
  text : String
deriving Repr, DecidableEq

/-- The parameters and header of one commentThreads request built by
`list_comments`. -/
structure CommentThreadsRequest where
  part : String
  allThreadsRelatedToChannelId : String
  textFormat : String
  pageToken : Option String
  authorization : String
deriving Repr, DecidableEq

/-- The dictionary `list_comments` returns: the page's `nextPageToken` (or
`None`) and the number of records written. -/
structure PageResult where
  token : Option String
  count : Nat
deriving Repr, DecidableEq

/-- `s.replace("\r", "")`: every carriage return is deleted (Python
`str.replace` with a one-character pattern). -/
def removeCR : List Char → List Char
  | [] => []
  | c :: cs => if c = '\r' then removeCR cs else c :: removeCR cs

/-- `s.replace("\n", "\\n")`: every line feed becomes the two-character
sequence backslash-n. -/
def escapeLF : List Char → List Char
  | [] => []
  | c :: cs => if c = '\n' then '\\' :: 'n' :: escapeLF cs else c :: escapeLF cs

/-- `snippet["textOriginal"].replace("\r", "").replace("\n", "\\n")`. -/
def transformText (s : String) : String :=
  ⟨escapeLF (removeCR s.data)⟩

/-- `RECORD_FORMAT.format(publishedAt, authorDisplayName, text)` where
`RECORD_FORMAT = '"{}","{}","{}"\n'` and `text` is the transformed
`textOriginal`. -/
def record (snippet : Comment) : String :=
  "\"" ++ snippet.publishedAt ++ "\",\"" ++ snippet.authorDisplayName
    ++ "\",\"" ++ transformText snippet.textOriginal ++ "\"\n"

/-- The `for item in result['items']` loop body of `list_comments`: write one
record per item to the buffer and increment `count`. -/
def writeItems (f : String) (count : Nat) : List Comment → String × Nat
  | [] => (f, count)
  | c :: cs => writeItems (f ++ record c) (count + 1) cs

/-- The request `list_comments` issues: fixed query parameters, the optional
`pageToken`, and the bearer-token header. -/
def buildRequest (token : Option String) (channel_id access_token : String) :
    CommentThreadsRequest :=
  { part := "snippet"
    allThreadsRelatedToChannelId := channel_id
    textFormat := "plainText"
    pageToken := token
    authorization := "Bearer " ++ access_token }

/-- `list_comments(f, token, channel_id, access_token)` given the response the
API returns to its single request.  Yields the issued request together with
either the new buffer content and page result (status 200) or the raised
`APIException` (any other status). -/
def list_comments (f : String) (token : Option String)
    (channel_id access_token : String) (response : ApiResponse) :
    CommentThreadsRequest × Except APIException (String × PageResult) :=
  (buildRequest token channel_id access_token,
   if response.status_code = 200 then
     let result := response.parsed
     let next_page_token := result.nextPageToken
     let (f2, count) := writeItems f 0 result.items
     Except.ok (f2, ⟨next_page_token, count⟩)
   else
     Except.error ⟨response.status_code, response.text⟩)

/-- The observable trace of one run of `execute_job`: the commentThreads
requests issued in order, the successfully processed pages in fetch order,
and the outcome — `none` when the provided response list was exhausted
while the loop still wanted another page, otherwise the returned CSV text
or the propagated `APIException`. -/
structure RunTrace where
  requests : List CommentThreadsRequest
  pages : List Page
  outcome : Option (Except APIException String)
deriving Repr

/-- The `while True` loop of `execute_job`.  State: `totalCount`, the buffer
`f`, and the current page `token`; each iteration consumes the next provided
response.  After a page, `token = next_token['token'] if total_count <= limit
else None`, and the loop returns the buffer exactly when that token is
`None`. -/
def runLoop (channel_id access_token : String) (limit : Int)
    (totalCount : Nat) (f : String) (token : Option String) :
    List ApiResponse → RunTrace
  | [] => ⟨[], [], none⟩
  | r :: rest =>
    let (req, res) := list_comments f token channel_id access_token r
    match res with
    | Except.error e => ⟨[req], [], some (Except.error e)⟩
    | Except.ok (f2, pr) =>
      let total2 := totalCount + pr.count
      let token2 := if (total2 : Int) ≤ limit then pr.token else none
      match token2 with
      | none => ⟨[req], [r.parsed], some (Except.ok f2)⟩
      | some t =>
        let tr := runLoop channel_id access_token limit total2 f2 (some t) rest
        ⟨req :: tr.requests, r.parsed :: tr.pages, tr.outcome⟩

/-- `execute_job(request)`: read `access_token` and `channel_id` from the
form, `limit = int(os.environ.get('LIMIT'))`, then run the fetch loop
starting from an empty scratch file, count 0 and no page token. -/
def execute_job (access_token channel_id : String) (limit : Int)
    (responses : List ApiResponse) : RunTrace :=
  runLoop channel_id access_token limit 0 "" none responses

/-- Specification-side description of the CSV text: one record per comment,
in order. -/
def concatRecords : List Comment → String
  | [] => ""
  | c :: cs => record c ++ concatRecords cs

/-- The records of one page: one per item, in order. -/
def pageRecords (p : Page) : String :=
  concatRecords p.items

/-- The CSV text of a sequence of pages: the concatenation, in fetch order,
of one record per comment item across all pages. -/
def pagesCSV (ps : List Page) : String :=
  concatRecords (ps.map Page.items).flatten

/-- Total number of CSV records over a sequence of pages: one per item. -/
def numRecords (ps : List Page) : Nat :=
  (ps.map (fun p => p.items.length)).sum

/-- Number of line-feed characters in a string. -/
def countNewlines (s : String) : Nat :=
  s.data.count '\n'

/-! ### Token exchange (`get_tokens`) -/

/-- What a JSON object holds at a given key: the key may be absent, hold
JSON `null`, or hold a string. -/
inductive JsonField where
  | missing
  | null
  | str (s : String)
deriving Repr, DecidableEq

/-- The token-endpoint response body, as far as `get_tokens` reads it:
what `json.loads(response.text)` holds at `access_token` and
`refresh_token`. -/
structure TokenBody where
  access_token : JsonField
  refresh_token : JsonField
deriving Repr, DecidableEq

/-- The dictionary `get_tokens` returns. -/
structure Tokens where
  success : Bool
  status_code : Nat
  access_token : Option String
  refresh_token : Option String
  message : String
deriving Repr, DecidableEq

/-- `result[key]` on a parsed JSON object: an absent key raises `KeyError`,
JSON `null` reads back as Python `None`, a string reads back as itself. -/
def readField (key : String) : JsonField → Except String (Option String)
  | JsonField.missing => Except.error ("KeyError: " ++ key)
  | JsonField.null => Except.ok none
  | JsonField.str s => Except.ok (some s)

/-- `get_tokens(request)` given the token endpoint's response: status code,
body text, and the parsed JSON object (consulted only on status 200).
`Except.error` models an uncaught Python exception. -/
def get_tokens (status_code : Nat) (text : String) (body : TokenBody) :
    Except String Tokens :=
  if status_code = 200 then
    match readField "access_token" body.access_token with
    | Except.error e => Except.error e
    | Except.ok tok =>
      match readField "refresh_token" body.refresh_token with
      | Except.error e => Except.error e
      | Except.ok rtok =>
        Except.ok ⟨true, 200, tok, rtok, ""⟩
  else
    Except.ok ⟨false, status_code, none, none, text⟩

/-! ### Concrete fixtures for witnesses and counterexamples -/

/-- A sample comment snippet. -/
def sampleComment : Comment := ⟨"2023-01-07T00:00:00Z", "alice", "hello"⟩

/-- A one-item final page (no `nextPageToken`). -/
def samplePage : Page := ⟨[sampleComment], none⟩

/-- A 200 response carrying `samplePage`. -/
def sampleOk : ApiResponse := ⟨200, "", samplePage⟩

/-- A 200 response carrying one item and a `nextPageToken`. -/
def tokOk : ApiResponse := ⟨200, "", ⟨[sampleComment], some "T"⟩⟩

/-- A 200 response carrying two items and no `nextPageToken`. -/
def twoItemOk : ApiResponse :=
  ⟨200, "", ⟨[sampleComment, ⟨"2023-01-08T00:00:00Z", "bob", "hey"⟩], none⟩⟩

/-- A non-200 response. -/
def sampleErr : ApiResponse := ⟨403, "quotaExceeded", ⟨[], none⟩⟩

/-- A 200 response whose page has no items but still carries a
`nextPageToken`. -/
def emptyTokenResponse : ApiResponse := ⟨200, "", ⟨[], some "t"⟩⟩

/-- A comment whose author name contains a line feed. -/
def nlComment : Comment := ⟨"2023", "a\nb", "x"⟩

/-- A 200 response carrying the line-feed-in-author comment. -/
def nlResponse : ApiResponse := ⟨200, "", ⟨[nlComment], none⟩⟩

/-! ### Helper lemmas -/

theorem writeItems_eq (l : List Comment) : ∀ (f : String) (n : Nat),
    writeItems f n l = (f ++ concatRecords l, n + l.length) := by
  induction l with
  | nil => intro f n; simp [writeItems, concatRecords]
  | cons c cs ih =>
    intro f n
    simp [writeItems, concatRecords, ih, String.append_assoc,
      Nat.add_comm, Nat.add_left_comm]

theorem concatRecords_append (xs ys : List Comment) :
    concatRecords (xs ++ ys) = concatRecords xs ++ concatRecords ys := by
  induction xs with
  | nil => simp [concatRecords]
  | cons c cs ih => simp [concatRecords, ih, String.append_assoc]

theorem pagesCSV_nil : pagesCSV [] = "" := rfl

theorem pagesCSV_cons (p : Page) (ps : List Page) :
    pagesCSV (p :: ps) = pageRecords p ++ pagesCSV ps := by
  simp [pagesCSV, pageRecords, concatRecords_append]

theorem pagesCSV_singleton (p : Page) : pagesCSV [p] = pageRecords p := by
  rw [pagesCSV_cons, pagesCSV_nil, String.append_empty]

/-- On a 200 response, `list_comments` appends the page's records to the
buffer and reports the page's `nextPageToken` and item count. -/
theorem list_comments_ok (f : String) (tok : Option String)
    (channel_id access_token : String) (r : ApiResponse)
    (h : r.status_code = 200) :
    list_comments f tok channel_id access_token r =
      (buildRequest tok channel_id access_token,
       Except.ok (f ++ pageRecords r.parsed,
         ⟨r.parsed.nextPageToken, r.parsed.items.length⟩)) := by
  simp [list_comments, h, writeItems_eq, pageRecords]

/-- On any other status, `list_comments` raises `APIException` with the
status code and response body. -/
theorem list_comments_err (f : String) (tok : Option String)
    (channel_id access_token : String) (r : ApiResponse)
    (h : r.status_code ≠ 200) :
    list_comments f tok channel_id access_token r =
      (buildRequest tok channel_id access_token,
       Except.error ⟨r.status_code, r.text⟩) := by
  simp [list_comments, h]

theorem runLoop_nil (c a : String) (L : Int) (t : Nat) (f : String)
    (tok : Option String) : runLoop c a L t f tok [] = ⟨[], [], none⟩ := rfl

/-- A non-200 response stops the loop at once: one request, no page, the
exception propagated. -/
theorem runLoop_cons_err (c a : String) (L : Int) (t : Nat) (f : String)
    (tok : Option String) (r : ApiResponse) (rest : List ApiResponse)
    (h : r.status_code ≠ 200) :
    runLoop c a L t f tok (r :: rest) =
      ⟨[buildRequest tok c a], [],
       some (Except.error ⟨r.status_code, r.text⟩)⟩ := by
  simp [runLoop, list_comments_err _ _ _ _ _ h]

/-- A 200 page after which no `nextPageToken` remains, or the accumulated
count strictly exceeds the limit, stops the loop and returns the buffer. -/
theorem runLoop_cons_stop (c a : String) (L : Int) (t : Nat) (f : String)
    (tok : Option String) (r : ApiResponse) (rest : List ApiResponse)
    (h : r.status_code = 200)
    (hstop : r.parsed.nextPageToken = none ∨
      (t : Int) + r.parsed.items.length > L) :
    runLoop c a L t f tok (r :: rest) =
      ⟨[buildRequest tok c a], [r.parsed],
       some (Except.ok (f ++ pageRecords r.parsed))⟩ := by
  rcases hstop with hnone | hgt
  · simp [runLoop, list_comments_ok _ _ _ _ _ h, hnone]
  · have hnle : ¬ ((t : Int) + r.parsed.items.length ≤ L) := by omega
    simp [runLoop, list_comments_ok _ _ _ _ _ h, hnle]

/-- A 200 page with a `nextPageToken` and an accumulated count still within
the limit makes the loop iterate again with that token. -/
theorem runLoop_cons_continue (c a : String) (L : Int) (t : Nat) (f : String)
    (tok : Option String) (r : ApiResponse) (rest : List ApiResponse)
    (nt : String) (h : r.status_code = 200)
    (hnt : r.parsed.nextPageToken = some nt)
    (hle : (t : Int) + r.parsed.items.length ≤ L) :
    runLoop c a L t f tok (r :: rest) =
      ⟨buildRequest tok c a ::
         (runLoop c a L (t + r.parsed.items.length)
           (f ++ pageRecords r.parsed) (some nt) rest).requests,
       r.parsed ::
         (runLoop c a L (t + r.parsed.items.length)
           (f ++ pageRecords r.parsed) (some nt) rest).pages,
       (runLoop c a L (t + r.parsed.items.length)
         (f ++ pageRecords r.parsed) (some nt) rest).outcome⟩ := by
  simp [runLoop, list_comments_ok _ _ _ _ _ h, hnt, hle]

/-- Whenever the loop returns CSV text, that text is the initial buffer
followed by one record per item over all pages processed, in order. -/
theorem runLoop_ok_csv (rs : List ApiResponse) :
    ∀ (c a : String) (L : Int) (t : Nat) (f : String) (tok : Option String)
      (s : String),
    (runLoop c a L t f tok rs).outcome = some (Except.ok s) →
    s = f ++ pagesCSV (runLoop c a L t f tok rs).pages := by
  induction rs with
  | nil =>
    intro c a L t f tok s h
    simp [runLoop_nil] at h
  | cons r rest ih =>
    intro c a L t f tok s h
    by_cases h200 : r.status_code = 200
    · cases hnt : r.parsed.nextPageToken with
      | none =>
        rw [runLoop_cons_stop c a L t f tok r rest h200 (Or.inl hnt)] at h ⊢
        simp only [Option.some.injEq, Except.ok.injEq] at h
        rw [← h, pagesCSV_singleton]
      | some nt =>
        by_cases hle : (t : Int) + r.parsed.items.length ≤ L
        · rw [runLoop_cons_continue c a L t f tok r rest nt h200 hnt hle]
            at h ⊢
          have hs := ih c a L (t + r.parsed.items.length)
            (f ++ pageRecords r.parsed) (some nt) s h
          rw [hs, pagesCSV_cons, String.append_assoc]
        · rw [runLoop_cons_stop c a L t f tok r rest h200
            (Or.inr (by omega))] at h ⊢
          simp only [Option.some.injEq, Except.ok.injEq] at h
          rw [← h, pagesCSV_singleton]
    · rw [runLoop_cons_err c a L t f tok r rest h200] at h
      simp at h

/-- The first request of a run carries the loop's current page token. -/
theorem runLoop_req_head (rs : List ApiResponse) (c a : String) (L : Int)
    (t : Nat) (f : String) (tok : Option String)
    (req : CommentThreadsRequest)
    (h : (runLoop c a L t f tok rs).requests[0]? = some req) :
    req = buildRequest tok c a := by
  cases rs with
  | nil => simp [runLoop_nil] at h
  | cons r rest =>
    by_cases h200 : r.status_code = 200
    · cases hnt : r.parsed.nextPageToken with
      | none =>
        rw [runLoop_cons_stop c a L t f tok r rest h200 (Or.inl hnt)] at h
        simp at h
        exact h.symm
      | some nt =>
        by_cases hle : (t : Int) + r.parsed.items.length ≤ L
        · rw [runLoop_cons_continue c a L t f tok r rest nt h200 hnt hle] at h
          simp at h
          exact h.symm
        · rw [runLoop_cons_stop c a L t f tok r rest h200
            (Or.inr (by omega))] at h
          simp at h
          exact h.symm
    · rw [runLoop_cons_err c a L t f tok r rest h200] at h
      simp at h
      exact h.symm

/-- Each iteration consumes one provided response, so a run issues at most
one request per provided response. -/
theorem runLoop_req_le (rs : List ApiResponse) :
    ∀ (c a : String) (L : Int) (t : Nat) (f : String) (tok : Option String),
    (runLoop c a L t f tok rs).requests.length ≤ rs.length := by
  induction rs with
  | nil =>
    intro c a L t f tok
    simp [runLoop_nil]
  | cons r rest ih =>
    intro c a L t f tok
    by_cases h200 : r.status_code = 200
    · cases hnt : r.parsed.nextPageToken with
      | none =>
        rw [runLoop_cons_stop c a L t f tok r rest h200 (Or.inl hnt)]
        simp
      | some nt =>
        by_cases hle : (t : Int) + r.parsed.items.length ≤ L
        · rw [runLoop_cons_continue c a L t f tok r rest nt h200 hnt hle]
          simpa using ih c a L (t + r.parsed.items.length)
            (f ++ pageRecords r.parsed) (some nt)
        · rw [runLoop_cons_stop c a L t f tok r rest h200
            (Or.inr (by omega))]
          simp
    · rw [runLoop_cons_err c a L t f tok r rest h200]
      simp

/-- Every request after the first carries exactly the `nextPageToken` of the
immediately preceding (successfully processed) page. -/
theorem runLoop_chain (rs : List ApiResponse) :
    ∀ (c a : String) (L : Int) (t : Nat) (f : String) (tok : Option String)
      (i : Nat) (req : CommentThreadsRequest),
    (runLoop c a L t f tok rs).requests[i + 1]? = some req →
    ∃ p, (runLoop c a L t f tok rs).pages[i]? = some p ∧
      req.pageToken = p.nextPageToken := by
  induction rs with
  | nil =>
    intro c a L t f tok i req h
    simp [runLoop_nil] at h
  | cons r rest ih =>
    intro c a L t f tok i req h
    by_cases h200 : r.status_code = 200
    · cases hnt : r.parsed.nextPageToken with
      | none =>
        rw [runLoop_cons_stop c a L t f tok r rest h200 (Or.inl hnt)] at h
        simp at h
      | some nt =>
        by_cases hle : (t : Int) + r.parsed.items.length ≤ L
        · rw [runLoop_cons_continue c a L t f tok r rest nt h200 hnt hle]
            at h ⊢
          cases i with
          | zero =>
            simp only [List.getElem?_cons_succ] at h
            have hreq := runLoop_req_head rest c a L
              (t + r.parsed.items.length) (f ++ pageRecords r.parsed)
              (some nt) req h
            refine ⟨r.parsed, by simp, ?_⟩
            rw [hreq, hnt]
            rfl
          | succ j =>
            simp only [List.getElem?_cons_succ] at h ⊢
            exact ih c a L (t + r.parsed.items.length)
              (f ++ pageRecords r.parsed) (some nt) j req h
        · rw [runLoop_cons_stop c a L t f tok r rest h200
            (Or.inr (by omega))] at h
          simp at h
    · rw [runLoop_cons_err c a L t f tok r rest h200] at h
      simp at h

/-- When every successful page carries at least one item, the number of
requests is bounded: each iteration but the last strictly increases the
accumulated count, which the loop keeps at most `limit`. -/
theorem runLoop_len_bound (rs : List ApiResponse) :
    ∀ (c a : String) (L : Int) (t : Nat) (f : String) (tok : Option String),
    (∀ r ∈ rs, r.status_code = 200 → r.parsed.items ≠ []) →
    ((t : Int) ≤ L ∨ t = 0) →
    (runLoop c a L t f tok rs).requests.length ≤ L.toNat + 1 - t := by
  induction rs with
  | nil =>
    intro c a L t f tok _ _
    simp [runLoop_nil]
  | cons r rest ih =>
    intro c a L t f tok hne ht
    by_cases h200 : r.status_code = 200
    · cases hnt : r.parsed.nextPageToken with
      | none =>
        rw [runLoop_cons_stop c a L t f tok r rest h200 (Or.inl hnt)]
        simp only [List.length_singleton]
        omega
      | some nt =>
        by_cases hle : (t : Int) + r.parsed.items.length ≤ L
        · rw [runLoop_cons_continue c a L t f tok r rest nt h200 hnt hle]
          simp only [List.length_cons]
          have hpos : 0 < r.parsed.items.length :=
            List.length_pos.mpr (hne r (List.mem_cons_self r rest) h200)
          have hrec := ih c a L (t + r.parsed.items.length)
            (f ++ pageRecords r.parsed) (some nt)
            (fun x hx hs => hne x (List.mem_cons_of_mem r hx) hs)
            (Or.inl hle)
          omega
        · rw [runLoop_cons_stop c a L t f tok r rest h200
            (Or.inr (by omega))]
          simp only [List.length_singleton]
          omega
    · rw [runLoop_cons_err c a L t f tok r rest h200]
      simp only [List.length_singleton]
      omega

/-- When the loop returns CSV text, the record total is at most the limit
plus the size of the last fetched page: the loop only continued while the
accumulated count was still at most the limit. -/
theorem runLoop_records_bound (rs : List ApiResponse) :
    ∀ (c a : String) (L : Int) (t : Nat) (f : String) (tok : Option String)
      (s : String),
    ((t : Int) ≤ L ∨ t = 0) →
    (runLoop c a L t f tok rs).outcome = some (Except.ok s) →
    ∃ p, (runLoop c a L t f tok rs).pages.getLast? = some p ∧
      t + numRecords (runLoop c a L t f tok rs).pages ≤
        L.toNat + p.items.length := by
  induction rs with
  | nil =>
    intro c a L t f tok s _ h
    simp [runLoop_nil] at h
  | cons r rest ih =>
    intro c a L t f tok s ht h
    by_cases h200 : r.status_code = 200
    · cases hnt : r.parsed.nextPageToken with
      | none =>
        rw [runLoop_cons_stop c a L t f tok r rest h200 (Or.inl hnt)] at h ⊢
        refine ⟨r.parsed, rfl, ?_⟩
        simp only [numRecords, List.map_cons, List.map_nil, List.sum_cons,
          List.sum_nil]
        omega
      | some nt =>
        by_cases hle : (t : Int) + r.parsed.items.length ≤ L
        · rw [runLoop_cons_continue c a L t f tok r rest nt h200 hnt hle]
            at h ⊢
          obtain ⟨p, hp, hb⟩ := ih c a L (t + r.parsed.items.length)
            (f ++ pageRecords r.parsed) (some nt) s (Or.inl hle) h
          cases hq : (runLoop c a L (t + r.parsed.items.length)
              (f ++ pageRecords r.parsed) (some nt) rest).pages with
          | nil => rw [hq] at hp; simp at hp
          | cons q qs =>
            rw [hq] at hp hb
            refine ⟨p, ?_, ?_⟩
            · simp only [List.getLast?_cons_cons]
              exact hp
            · simp only [numRecords, List.map_cons, List.sum_cons] at hb ⊢
              omega
        · rw [runLoop_cons_stop c a L t f tok r rest h200
            (Or.inr (by omega))] at h ⊢
          refine ⟨r.parsed, rfl, ?_⟩
          simp only [numRecords, List.map_cons, List.map_nil, List.sum_cons,
            List.sum_nil]
          omega
    · rw [runLoop_cons_err c a L t f tok r rest h200] at h
      simp at h

/-- Every page a run processes is the parsed body of a provided 200
response. -/
theorem runLoop_pages_mem (rs : List ApiResponse) :
    ∀ (c a : String) (L : Int) (t : Nat) (f : String) (tok : Option String)
      (p : Page),
    p ∈ (runLoop c a L t f tok rs).pages →
    ∃ r ∈ rs, r.status_code = 200 ∧ r.parsed = p := by
  induction rs with
  | nil =>
    intro c a L t f tok p h
    simp [runLoop_nil] at h
  | cons r rest ih =>
    intro c a L t f tok p h
    by_cases h200 : r.status_code = 200
    · cases hnt : r.parsed.nextPageToken with
      | none =>
        rw [runLoop_cons_stop c a L t f tok r rest h200 (Or.inl hnt)] at h
        simp at h
        exact ⟨r, List.mem_cons_self r rest, h200, h.symm⟩
      | some nt =>
        by_cases hle : (t : Int) + r.parsed.items.length ≤ L
        · rw [runLoop_cons_continue c a L t f tok r rest nt h200 hnt hle]
            at h
          simp only [List.mem_cons] at h
          rcases h with h | h
          · exact ⟨r, List.mem_cons_self r rest, h200, h.symm⟩
          · obtain ⟨x, hx, hxs, hxp⟩ := ih c a L
              (t + r.parsed.items.length) (f ++ pageRecords r.parsed)
              (some nt) p h
            exact ⟨x, List.mem_cons_of_mem r hx, hxs, hxp⟩
        · rw [runLoop_cons_stop c a L t f tok r rest h200
            (Or.inr (by omega))] at h
          simp at h
          exact ⟨r, List.mem_cons_self r rest, h200, h.symm⟩
    · rw [runLoop_cons_err c a L t f tok r rest h200] at h
      simp at h

theorem countNewlines_append (x y : String) :
    countNewlines (x ++ y) = countNewlines x + countNewlines y := by
  simp [countNewlines, String.data_append]

/-- The escaped text contains no line feed: every `\n` was turned into the
two characters `\` and `n`. -/
theorem escapeLF_count (l : List Char) : (escapeLF l).count '\n' = 0 := by
  induction l with
  | nil => rfl
  | cons c cs ih =>
    by_cases hc : c = '\n'
    · simp [escapeLF, hc, List.count_cons, ih]
    · simp [escapeLF, hc, List.count_cons, ih, Ne.symm hc]

theorem countNewlines_transformText (s : String) :
    countNewlines (transformText s) = 0 := by
  simpa [countNewlines, transformText] using escapeLF_count (removeCR s.data)

/-- A record whose `publishedAt` and `authorDisplayName` contain no line
feed contains exactly one: the terminator. -/
theorem countNewlines_record (cm : Comment)
    (h1 : countNewlines cm.publishedAt = 0)
    (h2 : countNewlines cm.authorDisplayName = 0) :
    countNewlines (record cm) = 1 := by
  simp only [record, countNewlines_append, h1, h2,
    countNewlines_transformText]
  decide

theorem countNewlines_concatRecords (l : List Comment)
    (h : ∀ cm ∈ l, countNewlines cm.publishedAt = 0 ∧
      countNewlines cm.authorDisplayName = 0) :
    countNewlines (concatRecords l) = l.length := by
  induction l with
  | nil => rfl
  | cons c cs ih =>
    have hc := h c (List.mem_cons_self c cs)
    simp only [concatRecords, countNewlines_append, List.length_cons,
      countNewlines_record c hc.1 hc.2,
      ih (fun x hx => h x (List.mem_cons_of_mem c hx))]
    omega

theorem countNewlines_pagesCSV (ps : List Page)
    (h : ∀ p ∈ ps, ∀ cm ∈ p.items, countNewlines cm.publishedAt = 0 ∧
      countNewlines cm.authorDisplayName = 0) :
    countNewlines (pagesCSV ps) = numRecords ps := by
  induction ps with
  | nil => rfl
  | cons p ps ih =>
    rw [pagesCSV_cons, countNewlines_append]
    have hp := countNewlines_concatRecords p.items
      (h p (List.mem_cons_self p ps))
    have hps := ih (fun q hq => h q (List.mem_cons_of_mem p hq))
    simp only [pageRecords] at *
    simp [numRecords, hp, hps]

/-- A run over zero-item pages that all carry a `nextPageToken` never stops:
with limit 0 and count stuck at 0, every provided page is consumed and one
request issued per page. -/
theorem runLoop_replicate_requests :
    ∀ (n : Nat) (c a f : String) (tok : Option String),
    (runLoop c a 0 0 f tok
      (List.replicate n emptyTokenResponse)).requests.length = n := by
  intro n
  induction n with
  | zero =>
    intro c a f tok
    simp [runLoop_nil]
  | succ m ih =>
    intro c a f tok
    rw [List.replicate_succ]
    rw [runLoop_cons_continue c a 0 0 f tok emptyTokenResponse _ "t" rfl rfl
      (by simp [emptyTokenResponse])]
    simp only [List.length_cons]
    have := ih c a (f ++ pageRecords emptyTokenResponse.parsed) (some "t")
    simp only [emptyTokenResponse, List.length_nil, Nat.add_zero] at this ⊢
    omega

/-! ### Claims -/

/-- Claim C1: for every run of `execute_job` in which every commentThreads
call returns status 200 and the loop returns, the returned string is the
concatenation, in fetch order, of exactly one CSV record per comment item
across all fetched pages, each record per `RECORD_FORMAT` (the three fields
quoted, comma-separated, newline-terminated). -/
theorem execute_job_returns_concatenated_records
    (access_token channel_id : String) (limit : Int)
    (responses : List ApiResponse) (s : String)
    (h200 : ∀ r ∈ responses, r.status_code = 200)
    (h : (execute_job access_token channel_id limit responses).outcome =
      some (Except.ok s)) :
    s = pagesCSV (execute_job access_token channel_id limit
      responses).pages := by
  have hs := runLoop_ok_csv responses channel_id access_token limit 0 ""
    none s (by simpa [execute_job] using h)
  rw [String.empty_append] at hs
  simpa [execute_job] using hs

theorem execute_job_returns_concatenated_records_witness :
    ∃ s, (execute_job "at" "ch" 5 [sampleOk]).outcome =
        some (Except.ok s) ∧
      s = pagesCSV (execute_job "at" "ch" 5 [sampleOk]).pages :=
  ⟨_, rfl, execute_job_returns_concatenated_records "at" "ch" 5 [sampleOk]
    _ (by decide) rfl⟩

/-- Claim C2: after processing a 200 page, the loop stops and returns the
buffered text exactly when the page carries no `nextPageToken` or the
accumulated record count strictly exceeds the limit; in every other case it
iterates again using the returned token. -/
theorem execute_job_loop_stop_iff (c a : String) (L : Int) (t : Nat)
    (f : String) (tok : Option String) (r : ApiResponse)
    (rest : List ApiResponse) (h200 : r.status_code = 200) :
    ((r.parsed.nextPageToken = none ∨
        (t : Int) + r.parsed.items.length > L) →
      runLoop c a L t f tok (r :: rest) =
        ⟨[buildRequest tok c a], [r.parsed],
         some (Except.ok (f ++ pageRecords r.parsed))⟩) ∧
    (∀ nt, r.parsed.nextPageToken = some nt →
      (t : Int) + r.parsed.items.length ≤ L →
      runLoop c a L t f tok (r :: rest) =
        ⟨buildRequest tok c a ::
           (runLoop c a L (t + r.parsed.items.length)
             (f ++ pageRecords r.parsed) (some nt) rest).requests,
         r.parsed ::
           (runLoop c a L (t + r.parsed.items.length)
             (f ++ pageRecords r.parsed) (some nt) rest).pages,
         (runLoop c a L (t + r.parsed.items.length)
           (f ++ pageRecords r.parsed) (some nt) rest).outcome⟩) :=
  ⟨fun hstop => runLoop_cons_stop c a L t f tok r rest h200 hstop,
   fun nt hnt hle => runLoop_cons_continue c a L t f tok r rest nt h200
     hnt hle⟩

theorem execute_job_loop_stop_iff_witness :
    runLoop "ch" "at" 0 0 "" none [sampleOk] =
      ⟨[buildRequest none "ch" "at"], [samplePage],
       some (Except.ok ("" ++ pageRecords samplePage))⟩ :=
  (execute_job_loop_stop_iff "ch" "at" 0 0 "" none sampleOk [] rfl).1
    (Or.inl rfl)

/-- Claim C3 as stated is false: no function of the configured limit bounds
the number of page requests over all sequences of successful responses —
pages with zero items that still carry a `nextPageToken` never increase the
accumulated count, so the loop consumes every such page provided. -/
theorem execute_job_requests_unbounded :
    ¬ ∃ B : Int → Nat, ∀ (a c : String) (L : Int) (rs : List ApiResponse),
        (∀ r ∈ rs, r.status_code = 200) →
        (execute_job a c L rs).requests.length ≤ B L := by
  rintro ⟨B, hB⟩
  have h200 : ∀ r ∈ List.replicate (B 0 + 1) emptyTokenResponse,
      r.status_code = 200 := by
    intro r hr
    rw [List.eq_of_mem_replicate hr]
    rfl
  have hle := hB "a" "c" 0 (List.replicate (B 0 + 1) emptyTokenResponse)
    h200
  have hlen := runLoop_replicate_requests (B 0 + 1) "c" "a" "" none
  simp only [execute_job] at hle
  omega

/-- Claim C3 amended: when every successful page carries at least one item,
the number of page requests is bounded by the configured limit plus one
(zero-item pages with a `nextPageToken` void the bound). -/
theorem execute_job_requests_bounded_of_nonempty_pages
    (a c : String) (L : Int) (rs : List ApiResponse)
    (h : ∀ r ∈ rs, r.status_code = 200 → r.parsed.items ≠ []) :
    (execute_job a c L rs).requests.length ≤ L.toNat + 1 := by
  have hb := runLoop_len_bound rs c a L 0 "" none h (Or.inr rfl)
  simpa [execute_job] using hb

theorem execute_job_requests_bounded_witness :
    (execute_job "at" "ch" 5 [sampleOk]).requests.length ≤ 6 :=
  execute_job_requests_bounded_of_nonempty_pages "at" "ch" 5 [sampleOk]
    (by decide)

/-- Claim C4: each iteration issues exactly one request (at most one per
provided response), the first request carries no `pageToken`, and every
subsequent request carries exactly the `nextPageToken` of the immediately
preceding response's page. -/
theorem execute_job_request_chain (a c : String) (L : Int)
    (rs : List ApiResponse) :
    (∀ req, (execute_job a c L rs).requests[0]? = some req →
      req.pageToken = none) ∧
    (∀ i req, (execute_job a c L rs).requests[i + 1]? = some req →
      ∃ p, (execute_job a c L rs).pages[i]? = some p ∧
        req.pageToken = p.nextPageToken) ∧
    (execute_job a c L rs).requests.length ≤ rs.length := by
  refine ⟨?_, ?_, ?_⟩
  · intro req h
    have hr := runLoop_req_head rs c a L 0 "" none req
      (by simpa [execute_job] using h)
    rw [hr]
    rfl
  · intro i req h
    simpa [execute_job] using runLoop_chain rs c a L 0 "" none i req
      (by simpa [execute_job] using h)
  · simpa [execute_job] using runLoop_req_le rs c a L 0 "" none

theorem execute_job_request_chain_witness :
    ∃ p, (execute_job "at" "ch" 5 [tokOk, sampleOk]).pages[0]? = some p ∧
      (buildRequest (some "T") "ch" "at").pageToken = p.nextPageToken :=
  (execute_job_request_chain "at" "ch" 5 [tokOk, sampleOk]).2.1 0
    (buildRequest (some "T") "ch" "at") rfl

/-- Claim C5: there is no retry — on any non-200 response `list_comments`
raises `APIException` with that status code and response body, and the loop
issues no further request and propagates the exception instead of returning
CSV text. -/
theorem list_comments_error_propagates (c a f : String)
    (tok : Option String) (L : Int) (t : Nat) (r : ApiResponse)
    (rest : List ApiResponse) (h : r.status_code ≠ 200) :
    (list_comments f tok c a r).2 =
      Except.error ⟨r.status_code, r.text⟩ ∧
    runLoop c a L t f tok (r :: rest) =
      ⟨[buildRequest tok c a], [],
       some (Except.error ⟨r.status_code, r.text⟩)⟩ := by
  constructor
  · rw [list_comments_err f tok c a r h]
  · exact runLoop_cons_err c a L t f tok r rest h

theorem list_comments_error_propagates_witness :
    runLoop "ch" "at" 5 0 "" none [sampleErr, sampleOk] =
      ⟨[buildRequest none "ch" "at"], [],
       some (Except.error ⟨403, "quotaExceeded"⟩)⟩ :=
  (list_comments_error_propagates "ch" "at" "" none 5 0 sampleErr
    [sampleOk] (by decide)).2

/-- Claim C6: buffering is incremental and append-only — on a 200 response
`list_comments` leaves the earlier buffer content unchanged as a prefix and
appends exactly its page's records after it, reporting the page's
`nextPageToken` and item count. -/
theorem list_comments_appends_page_records (f : String)
    (tok : Option String) (c a : String) (r : ApiResponse)
    (h : r.status_code = 200) :
    (list_comments f tok c a r).2 =
      Except.ok (f ++ pageRecords r.parsed,
        ⟨r.parsed.nextPageToken, r.parsed.items.length⟩) := by
  rw [list_comments_ok f tok c a r h]

theorem list_comments_appends_page_records_witness :
    (list_comments "prev" none "ch" "at" sampleOk).2 =
      Except.ok ("prev" ++ pageRecords samplePage, ⟨none, 1⟩) :=
  list_comments_appends_page_records "prev" none "ch" "at" sampleOk rfl

/-- Claim C7: the limit does not cap the output exactly — a run with limit 1
and a single two-item page returns 2 records — yet the record count of any
completed run is bounded by the limit plus the size of the last fetched
page. -/
theorem execute_job_limit_overshoot :
    (numRecords (execute_job "at" "ch" 1 [twoItemOk]).pages = 2 ∧
     (execute_job "at" "ch" 1 [twoItemOk]).outcome =
       some (Except.ok
         (pagesCSV (execute_job "at" "ch" 1 [twoItemOk]).pages))) ∧
    (∀ (a c : String) (L : Int) (rs : List ApiResponse) (s : String),
      (execute_job a c L rs).outcome = some (Except.ok s) →
      ∃ p, (execute_job a c L rs).pages.getLast? = some p ∧
        numRecords (execute_job a c L rs).pages ≤
          L.toNat + p.items.length) := by
  constructor
  · exact ⟨rfl, rfl⟩
  · intro a c L rs s h
    obtain ⟨p, hp, hb⟩ := runLoop_records_bound rs c a L 0 "" none s
      (Or.inr rfl) (by simpa [execute_job] using h)
    refine ⟨p, by simpa [execute_job] using hp, ?_⟩
    have hb2 : numRecords (runLoop c a L 0 "" none rs).pages ≤
        L.toNat + p.items.length := by omega
    simpa [execute_job] using hb2

theorem execute_job_limit_overshoot_witness :
    ∃ p, (execute_job "at" "ch" 1 [twoItemOk]).pages.getLast? = some p ∧
      numRecords (execute_job "at" "ch" 1 [twoItemOk]).pages ≤
        (1 : Int).toNat + p.items.length :=
  execute_job_limit_overshoot.2 "at" "ch" 1 [twoItemOk] _ rfl

/-- Claim C8 as stated is false: only `textOriginal` is transformed, so a
line feed in `authorDisplayName` survives into the record — a completed run
over one single-comment page whose author name contains a line feed yields
a CSV with 2 newline characters but only 1 record. -/
theorem newline_count_mismatch :
    (execute_job "at" "ch" 5 [nlResponse]).outcome =
      some (Except.ok
        (pagesCSV (execute_job "at" "ch" 5 [nlResponse]).pages)) ∧
    numRecords (execute_job "at" "ch" 5 [nlResponse]).pages = 1 ∧
    countNewlines
      (pagesCSV (execute_job "at" "ch" 5 [nlResponse]).pages) = 2 :=
  ⟨rfl, rfl, rfl⟩

/-- Claim C8 amended: the transformed `textOriginal` contains no line feed
(carriage returns deleted, line feeds escaped to backslash-n), and whenever
`publishedAt` and `authorDisplayName` of every fetched comment contain no
line feed, the number of newline characters in the returned CSV equals the
number of records. -/
theorem newline_count_eq_records_of_clean_fields :
    (∀ s, countNewlines (transformText s) = 0) ∧
    (∀ (a c : String) (L : Int) (rs : List ApiResponse) (s : String),
      (∀ r ∈ rs, ∀ cm ∈ r.parsed.items,
        countNewlines cm.publishedAt = 0 ∧
        countNewlines cm.authorDisplayName = 0) →
      (execute_job a c L rs).outcome = some (Except.ok s) →
      countNewlines s = numRecords (execute_job a c L rs).pages) := by
  constructor
  · exact countNewlines_transformText
  · intro a c L rs s hclean h
    have hcsv := runLoop_ok_csv rs c a L 0 "" none s
      (by simpa [execute_job] using h)
    rw [String.empty_append] at hcsv
    rw [hcsv]
    have hpages : ∀ p ∈ (runLoop c a L 0 "" none rs).pages,
        ∀ cm ∈ p.items, countNewlines cm.publishedAt = 0 ∧
          countNewlines cm.authorDisplayName = 0 := by
      intro p hp cm hcm
      obtain ⟨r, hr, h200, hparsed⟩ :=
        runLoop_pages_mem rs c a L 0 "" none p hp
      exact hclean r hr cm (by rw [hparsed]; exact hcm)
    simpa [execute_job] using countNewlines_pagesCSV
      (runLoop c a L 0 "" none rs).pages hpages

theorem newline_count_eq_records_witness :
    ∃ s, (execute_job "at" "ch" 5 [sampleOk]).outcome =
        some (Except.ok s) ∧
      countNewlines s = numRecords (execute_job "at" "ch" 5
        [sampleOk]).pages :=
  ⟨_, rfl, newline_count_eq_records_of_clean_fields.2 "at" "ch" 5
    [sampleOk] _ (by decide) rfl⟩

/-- Claim C9: the job is deterministic — two runs with the same form fields,
the same limit and the same sequence of API responses produce identical
traces, in particular identical returned CSV text. -/
theorem execute_job_deterministic (a1 a2 c1 c2 : String) (L1 L2 : Int)
    (rs1 rs2 : List ApiResponse) (ha : a1 = a2) (hc : c1 = c2)
    (hL : L1 = L2) (hr : rs1 = rs2) :
    execute_job a1 c1 L1 rs1 = execute_job a2 c2 L2 rs2 := by
  rw [ha, hc, hL, hr]

theorem execute_job_deterministic_witness :
    execute_job "a" "c" 1 [sampleOk] = execute_job "a" "c" 1 [sampleOk] :=
  execute_job_deterministic "a" "a" "c" "c" 1 1 [sampleOk] [sampleOk]
    rfl rfl rfl rfl

/-- Claim C10 as stated is false: on a 200 response whose JSON body maps
`access_token` and `refresh_token` to null, `get_tokens` returns success
True and status 200 but both tokens None — the tokens are not non-null
whenever the status is 200. -/
theorem get_tokens_nonnull_claim_false :
    ¬ ∀ (status : Nat) (text : String) (body : TokenBody),
        (status = 200 → ∃ atok rtok, get_tokens status text body =
          Except.ok ⟨true, 200, some atok, some rtok, ""⟩) ∧
        (status ≠ 200 → get_tokens status text body =
          Except.ok ⟨false, status, none, none, text⟩) := by
  intro h
  obtain ⟨atok, rtok, habs⟩ :=
    (h 200 "" ⟨JsonField.null, JsonField.null⟩).1 rfl
  simp [get_tokens, readField] at habs

/-- Claim C10 amended: when the endpoint responds 200 and the parsed body
maps `access_token` and `refresh_token` to strings, `get_tokens` returns
success True, status 200, those tokens and an empty message; for every
other status it returns success False, that status, both tokens None, and
the response body as the message. -/
theorem get_tokens_amended (status : Nat) (text : String)
    (body : TokenBody) :
    (∀ atok rtok, status = 200 → body.access_token = JsonField.str atok →
      body.refresh_token = JsonField.str rtok →
      get_tokens status text body =
        Except.ok ⟨true, 200, some atok, some rtok, ""⟩) ∧
    (status ≠ 200 → get_tokens status text body =
      Except.ok ⟨false, status, none, none, text⟩) := by
  constructor
  · intro atok rtok hs h1 h2
    subst hs
    simp [get_tokens, readField, h1, h2]
  · intro hs
    simp [get_tokens, hs]

theorem get_tokens_amended_witness :
    get_tokens 200 "" ⟨JsonField.str "A", JsonField.str "R"⟩ =
      Except.ok ⟨true, 200, some "A", some "R", ""⟩ :=
  (get_tokens_amended 200 "" ⟨JsonField.str "A", JsonField.str "R"⟩).1
    "A" "R" rfl rfl rfl

end YoutubeComment
